import Mathlib

/-! rust-elf-loader: the module loader `utils/loader.c`

A shallow embedding of `main` of `utils/loader.c`.  The program is one
straight-line procedure around four system calls and one indirect call, so the
embedding threads an explicit host state through the calls and records every
externally visible action of `main` in a trace.

* Pointers are addresses (`Nat`), `NULL` is `0`, pointer arithmetic is addition.
* `int`, `off_t` and `ssize_t` values are `Int`; the implicit conversion
  `off_t → size_t` at the `mmap` and `read` calls is `to_size_t` (reduction
  modulo `2^64`).
* Everything outside `main` (kernel, libc, the loaded code) is a `Host`: a
  record of responses, each a function of the arguments `main` passes and of
  the host state at that moment.
* The trace lists what `main` itself does: its system calls, the text it
  writes to standard output and standard error, and the transfer of control
  to the entry point.  What the loaded code does while it runs is not part of
  the trace; a run in which it never returns has no return value.
-/

namespace Loader

/-! ## Data model -/

/-- The type `void *(*dlsym_f)(void *restrict handle, const char *restrict symbol)`:
a function pointer, `none` being the null function pointer.  A non-null value
maps a handle address and a symbol name to an address (`0` is `NULL`). -/
abbrev dlsym_f := Option (Nat → String → Nat)

/-- The struct `module_init_ctx` of the source: one member, `dlsym`. -/
structure module_init_ctx_t where
  dlsym : dlsym_f

/-- The call `ctx->dlsym(handle, symbol)` as loaded code makes it through the
context it was handed; `none` is a call through a null function pointer. -/
def module_init_ctx_t.query (ctx : module_init_ctx_t) (handle : Nat) (symbol : String) :
    Option Nat :=
  ctx.dlsym.map fun f => f handle symbol

/-! ## Constants of the system headers (Linux values) -/

def NULL : Nat := 0

def O_RDONLY : Int := 0

def PROT_READ : Nat := 1

def PROT_WRITE : Nat := 2

def PROT_EXEC : Nat := 4

def MAP_SHARED : Nat := 1

def MAP_PRIVATE : Nat := 2

/-- The value `MAP_FAILED`, that is `(void *) -1` on a 64-bit host. -/
def MAP_FAILED : Nat := 2 ^ 64 - 1

/-- Conversion of a signed 64-bit value (`off_t`) to `size_t`. -/
def to_size_t (x : Int) : Nat := (x % 2 ^ 64).toNat

/-! ## The host -/

/-- Everything `main` calls.  `σ` is the state of the world outside `main`
(kernel tables, memory, `errno`).  Each response is a function of the
arguments passed and of the state at the time of the call.

* `sys_open pathname flags w` is the returned descriptor (or `-1`);
* `sys_fstat fd w` is the return value and the `st_size` found in `st`
  after the call;
* `sys_mmap addr length prot flags fd offset w` is the returned address;
* `sys_read fd buf count w` is the returned byte count (or `-1`);
* `call func ctx w` is the value returned by the code at address `func`
  called with `&ctx`, or `none` when control never comes back;
* `dlsym` is the host's dynamic symbol resolver;
* `strerror_errno w` is the text `perror` appends for the current `errno`;
* `mem w a` is the byte at address `a`. -/
structure Host (σ : Type) where
  dlsym : Nat → String → Nat
  sys_open : String → Int → σ → Int × σ
  sys_fstat : Int → σ → Int × Int × σ
  sys_mmap : Nat → Nat → Nat → Nat → Int → Int → σ → Nat × σ
  sys_read : Int → Nat → Nat → σ → Int × σ
  call : Nat → module_init_ctx_t → σ → Option Int
  strerror_errno : σ → String
  mem : σ → Nat → Nat

/-- One externally visible action of `main`, with the arguments it passed.
The `call` event carries the host state in which control is transferred. -/
inductive Event (σ : Type) where
  | stdout (text : String)
  | stderr (text : String)
  | sys_open (pathname : String) (flags : Int)
  | sys_fstat (fd : Int)
  | sys_mmap (addr length prot flags : Nat) (fd : Int) (offset : Int)
  | sys_read (fd : Int) (buf count : Nat)
  | call (func : Nat) (ctx : module_init_ctx_t) (w : σ)

/-- A run of `main`: what it did, in order, and the value it returned
(`none` when the entry point never gave control back). -/
structure Run (σ : Type) where
  trace : List (Event σ)
  status : Option Int

/-! ## libc output routines -/

/-- Text produced by `printf("Usage: %s <file>\n", arg0)`. -/
def printf_usage (arg0 : String) : String := "Usage: " ++ arg0 ++ " <file>\n"

/-- Text produced by `puts(s)`. -/
def puts (s : String) : String := s ++ "\n"

/-- Text produced by `perror(s)` when `strerror(errno)` is `err`. -/
def perror (s : String) (err : String) : String := s ++ ": " ++ err ++ "\n"

/-! ## `main` -/

/-- The function `main` of `utils/loader.c`.  `argv` lists the strings
`argv[0]`, `argv[1]`, ….  The C runtime passes `argc` strings, so `argv[1]`
is present whenever `argc = 2`; an absent `argv[0]` is a null pointer, which
`printf` renders as `(null)`, and an absent `argv[1]` is read as the empty
path. -/
def main {σ : Type} (h : Host σ) (argc : Int) (argv : List String) (w : σ) : Run σ :=
  let ctx0 : module_init_ctx_t := ⟨none⟩
  let ctx : module_init_ctx_t := { ctx0 with dlsym := some h.dlsym }
  if argc ≠ 2 then
    ⟨[Event.stdout (printf_usage (argv.getD 0 "(null)"))], some 1⟩
  else
    let r1 := h.sys_open (argv.getD 1 "") O_RDONLY w
    let fd := r1.1
    let t1 : List (Event σ) := [Event.sys_open (argv.getD 1 "") O_RDONLY]
    if fd = -1 then
      ⟨t1 ++ [Event.stderr (perror "open" (h.strerror_errno r1.2))], some 1⟩
    else
      let r2 := h.sys_fstat fd r1.2
      let st_size := r2.2.1
      let t2 := t1 ++ [Event.sys_fstat fd]
      if r2.1 = -1 then
        ⟨t2 ++ [Event.stderr (perror "fstat" (h.strerror_errno r2.2.2))], some 1⟩
      else
        let r3 := h.sys_mmap NULL (to_size_t st_size)
          (PROT_READ ||| PROT_WRITE ||| PROT_EXEC) MAP_PRIVATE fd 0 r2.2.2
        let map := r3.1
        let t3 := t2 ++ [Event.sys_mmap NULL (to_size_t st_size)
          (PROT_READ ||| PROT_WRITE ||| PROT_EXEC) MAP_PRIVATE fd 0]
        if map = MAP_FAILED then
          ⟨t3 ++ [Event.stderr (perror "mmap" (h.strerror_errno r3.2))], some 1⟩
        else
          let r4 := h.sys_read fd map (to_size_t st_size) r3.2
          let bytes_read := r4.1
          let t4 := t3 ++ [Event.sys_read fd map (to_size_t st_size)]
          if bytes_read = -1 then
            ⟨t4 ++ [Event.stderr (perror "read" (h.strerror_errno r4.2))], some 1⟩
          else
            let func := map + 0x1000
            let t5 := t4 ++ [Event.stdout (puts "jumping to 0x1000"), Event.call func ctx r4.2]
            match h.call func ctx r4.2 with
            | none => ⟨t5, none⟩
            | some check =>
              if 0 = check then
                ⟨t5 ++ [Event.stdout (puts "success")], some 0⟩
              else
                ⟨t5 ++ [Event.stdout (puts "failure")], some 0⟩

/-! ## Observations on a run -/

/-- The external operations `main` can perform. -/
inductive Op where
  | open_
  | fstat
  | mmap
  | read
  | call
  deriving DecidableEq, Repr

/-- The name `main` passes to `perror` when a system call fails (the entry-point
call has no such message; its label only names it). -/
def Op.label : Op → String
  | .open_ => "open"
  | .fstat => "fstat"
  | .mmap => "mmap"
  | .read => "read"
  | .call => "call"

/-- The external operations of a trace, in order (output is dropped). -/
def ops {σ : Type} : List (Event σ) → List Op
  | [] => []
  | Event.sys_open _ _ :: t => Op.open_ :: ops t
  | Event.sys_fstat _ :: t => Op.fstat :: ops t
  | Event.sys_mmap _ _ _ _ _ _ :: t => Op.mmap :: ops t
  | Event.sys_read _ _ _ :: t => Op.read :: ops t
  | Event.call _ _ _ :: t => Op.call :: ops t
  | Event.stdout _ :: t => ops t
  | Event.stderr _ :: t => ops t

/-- The pieces of text written to standard output, in order. -/
def stdout_of {σ : Type} : List (Event σ) → List String
  | [] => []
  | Event.stdout s :: t => s :: stdout_of t
  | _ :: t => stdout_of t

/-- The pieces of text written to standard error, in order. -/
def stderr_of {σ : Type} : List (Event σ) → List String
  | [] => []
  | Event.stderr s :: t => s :: stderr_of t
  | _ :: t => stderr_of t

/-! ### The host's responses along the path of `main` -/

/-- Response to the `open` call of `main`. -/
def openRes {σ : Type} (h : Host σ) (argv : List String) (w : σ) : Int × σ :=
  h.sys_open (argv.getD 1 "") O_RDONLY w

/-- Response to the `fstat` call of `main`. -/
def fstatRes {σ : Type} (h : Host σ) (argv : List String) (w : σ) : Int × Int × σ :=
  h.sys_fstat (openRes h argv w).1 (openRes h argv w).2

/-- The file size `st.st_size` reported by `fstat`. -/
def st_size {σ : Type} (h : Host σ) (argv : List String) (w : σ) : Int :=
  (fstatRes h argv w).2.1

/-- Response to the `mmap` call of `main`. -/
def mmapRes {σ : Type} (h : Host σ) (argv : List String) (w : σ) : Nat × σ :=
  h.sys_mmap NULL (to_size_t (st_size h argv w)) (PROT_READ ||| PROT_WRITE ||| PROT_EXEC)
    MAP_PRIVATE (openRes h argv w).1 0 (fstatRes h argv w).2.2

/-- Response to the `read` call of `main`. -/
def readRes {σ : Type} (h : Host σ) (argv : List String) (w : σ) : Int × σ :=
  h.sys_read (openRes h argv w).1 (mmapRes h argv w).1 (to_size_t (st_size h argv w))
    (mmapRes h argv w).2

/-- Outcome of the entry point as `main` calls it. -/
def callRes {σ : Type} (h : Host σ) (argv : List String) (w : σ) : Option Int :=
  h.call ((mmapRes h argv w).1 + 0x1000) ⟨some h.dlsym⟩ (readRes h argv w).2

/-- The first of the four system calls that fails, in the order `main`
issues them; `none` when all four succeed. -/
def failedOp {σ : Type} (h : Host σ) (argv : List String) (w : σ) : Option Op :=
  if (openRes h argv w).1 = -1 then some Op.open_
  else if (fstatRes h argv w).1 = -1 then some Op.fstat
  else if (mmapRes h argv w).1 = MAP_FAILED then some Op.mmap
  else if (readRes h argv w).1 = -1 then some Op.read
  else none

/-- Host state right after the failing call `op`. -/
def worldAfter {σ : Type} (h : Host σ) (argv : List String) (w : σ) : Op → σ
  | .open_ => (openRes h argv w).2
  | .fstat => (fstatRes h argv w).2.2
  | .mmap => (mmapRes h argv w).2
  | .read => (readRes h argv w).2
  | .call => (readRes h argv w).2

/-- The operations issued up to and including `op`. -/
def opsUpTo : Op → List Op
  | .open_ => [Op.open_]
  | .fstat => [Op.open_, Op.fstat]
  | .mmap => [Op.open_, Op.fstat, Op.mmap]
  | .read => [Op.open_, Op.fstat, Op.mmap, Op.read]
  | .call => [Op.open_, Op.fstat, Op.mmap, Op.read, Op.call]

/-! ## Memory and file contents -/

/-- Memory `m` after `n` bytes of `file`, taken from file position `pos` on,
were stored at the addresses `base`, …, `base + n - 1`. -/
def store (file : List Nat) (pos base n : Nat) (m : Nat → Nat) : Nat → Nat :=
  fun a => if base ≤ a ∧ a < base + n then file.getD (pos + (a - base)) 0 else m a

/-! ## A small concrete host

A one-file kernel used to run `main` on concrete inputs: the path `"mod.bin"`
names a file with bytes `file`; descriptor `3` is handed out, the mapping is
placed at `0x7f0000000000`, and `read` returns at most `chunk` bytes. -/

/-- State of the concrete host: memory, the file offset of descriptor 3, and
the text for the current `errno`. -/
structure World where
  memory : Nat → Nat
  offset : Nat
  err : String

/-- Initial state of the concrete host. -/
def World.init : World := ⟨fun _ => 0xcc, 0, "Success"⟩

/-- Where the concrete host places the mapping. -/
def toyBase : Nat := 0x7f0000000000

/-- The concrete host.  `failing` selects a system call that is made to fail,
`chunk` bounds what a single `read` transfers, `ret` is what the loaded code
returns. -/
def toyHost (file : List Nat) (failing : Option Op) (chunk : Nat) (ret : Option Int) :
    Host World where
  dlsym := fun _ symbol => if symbol = "puts" then 0x401000 else NULL
  sys_open := fun pathname _ w =>
    if pathname = "mod.bin" ∧ failing ≠ some Op.open_ then (3, ⟨w.memory, 0, w.err⟩)
    else (-1, ⟨w.memory, w.offset, "No such file or directory"⟩)
  sys_fstat := fun fd w =>
    if fd = 3 ∧ failing ≠ some Op.fstat then (0, (file.length : Int), w)
    else (-1, 0, ⟨w.memory, w.offset, "Bad file descriptor"⟩)
  sys_mmap := fun _ length _ _ fd offset w =>
    if fd = 3 ∧ offset = 0 ∧ 0 < length ∧ failing ≠ some Op.mmap then
      (toyBase, ⟨store file 0 toyBase length w.memory, w.offset, w.err⟩)
    else (MAP_FAILED, ⟨w.memory, w.offset, "Invalid argument"⟩)
  sys_read := fun fd buf count w =>
    if fd = 3 ∧ failing ≠ some Op.read then
      (((min (min count chunk) (file.length - w.offset) : Nat) : Int),
        ⟨store file w.offset buf (min (min count chunk) (file.length - w.offset)) w.memory,
          w.offset + min (min count chunk) (file.length - w.offset), w.err⟩)
    else (-1, ⟨w.memory, w.offset, "Input/output error"⟩)
  call := fun _ _ _ => ret
  strerror_errno := fun w => w.err
  mem := fun w a => w.memory a

/-! ## The shape of a run, case by case -/

section Shape

variable {σ : Type} (h : Host σ) (argc : Int) (argv : List String) (w : σ)

/-- The `open` event of `main`. -/
def evOpen : Event σ := Event.sys_open (argv.getD 1 "") O_RDONLY

/-- The `fstat` event of `main`. -/
def evFstat : Event σ := Event.sys_fstat (openRes h argv w).1

/-- The `mmap` event of `main`. -/
def evMmap : Event σ :=
  Event.sys_mmap NULL (to_size_t (st_size h argv w)) (PROT_READ ||| PROT_WRITE ||| PROT_EXEC)
    MAP_PRIVATE (openRes h argv w).1 0

/-- The `read` event of `main`. -/
def evRead : Event σ :=
  Event.sys_read (openRes h argv w).1 (mmapRes h argv w).1 (to_size_t (st_size h argv w))

/-- The transfer of control to the entry point. -/
def evCall : Event σ :=
  Event.call ((mmapRes h argv w).1 + 0x1000) ⟨some h.dlsym⟩ (readRes h argv w).2

/-- Wrong argument count: the usage line and nothing else. -/
theorem main_of_usage (hargc : argc ≠ 2) :
    main h argc argv w = ⟨[Event.stdout (printf_usage (argv.getD 0 "(null)"))], some 1⟩ := by
  simp only [main, hargc, ne_eq, not_true_eq_false, not_false_eq_true, if_true, if_false,
    List.cons_append, List.nil_append]

/-- The run when `open` fails. -/
theorem main_of_open (hargc : argc = 2) (h1 : (openRes h argv w).1 = -1) :
    main h argc argv w =
      ⟨[evOpen argv, Event.stderr (perror "open" (h.strerror_errno (openRes h argv w).2))],
        some 1⟩ := by
  simp only [openRes] at h1
  simp only [main, hargc, h1, evOpen, openRes, ne_eq, not_true_eq_false, not_false_eq_true, if_true, if_false,
    List.cons_append, List.nil_append]

/-- The run when `fstat` fails. -/
theorem main_of_fstat (hargc : argc = 2) (h1 : (openRes h argv w).1 ≠ -1)
    (h2 : (fstatRes h argv w).1 = -1) :
    main h argc argv w =
      ⟨[evOpen argv, evFstat h argv w,
          Event.stderr (perror "fstat" (h.strerror_errno (fstatRes h argv w).2.2))],
        some 1⟩ := by
  simp only [openRes, fstatRes] at h1 h2
  simp only [main, hargc, h1, h2, evOpen, evFstat, openRes, fstatRes, ne_eq, not_true_eq_false, not_false_eq_true, if_true, if_false,
    List.cons_append, List.nil_append]

/-- The run when `mmap` fails. -/
theorem main_of_mmap (hargc : argc = 2) (h1 : (openRes h argv w).1 ≠ -1)
    (h2 : (fstatRes h argv w).1 ≠ -1) (h3 : (mmapRes h argv w).1 = MAP_FAILED) :
    main h argc argv w =
      ⟨[evOpen argv, evFstat h argv w, evMmap h argv w,
          Event.stderr (perror "mmap" (h.strerror_errno (mmapRes h argv w).2))],
        some 1⟩ := by
  simp only [openRes, fstatRes, mmapRes, st_size] at h1 h2 h3
  simp only [main, hargc, h1, h2, h3, evOpen, evFstat, evMmap, openRes, fstatRes, mmapRes, st_size, ne_eq, not_true_eq_false, not_false_eq_true, if_true, if_false,
    List.cons_append, List.nil_append]

/-- The run when `read` fails. -/
theorem main_of_read (hargc : argc = 2) (h1 : (openRes h argv w).1 ≠ -1)
    (h2 : (fstatRes h argv w).1 ≠ -1) (h3 : (mmapRes h argv w).1 ≠ MAP_FAILED)
    (h4 : (readRes h argv w).1 = -1) :
    main h argc argv w =
      ⟨[evOpen argv, evFstat h argv w, evMmap h argv w, evRead h argv w,
          Event.stderr (perror "read" (h.strerror_errno (readRes h argv w).2))],
        some 1⟩ := by
  simp only [openRes, fstatRes, mmapRes, readRes, st_size] at h1 h2 h3 h4
  simp only [main, hargc, h1, h2, h3, h4, evOpen, evFstat, evMmap, evRead, openRes, fstatRes,
    mmapRes, readRes, st_size, ne_eq, not_true_eq_false, not_false_eq_true, if_true, if_false,
    List.cons_append, List.nil_append]

/-- The run when the entry point is called and never returns. -/
theorem main_of_hang (hargc : argc = 2) (h1 : (openRes h argv w).1 ≠ -1)
    (h2 : (fstatRes h argv w).1 ≠ -1) (h3 : (mmapRes h argv w).1 ≠ MAP_FAILED)
    (h4 : (readRes h argv w).1 ≠ -1) (h5 : callRes h argv w = none) :
    main h argc argv w =
      ⟨[evOpen argv, evFstat h argv w, evMmap h argv w, evRead h argv w,
          Event.stdout (puts "jumping to 0x1000"), evCall h argv w],
        none⟩ := by
  simp only [openRes, fstatRes, mmapRes, readRes, callRes, st_size] at h1 h2 h3 h4 h5
  simp only [main, hargc, h1, h2, h3, h4, h5, evOpen, evFstat, evMmap, evRead, evCall, openRes,
    fstatRes, mmapRes, readRes, st_size, ne_eq, not_true_eq_false, not_false_eq_true, if_true, if_false,
    List.cons_append, List.nil_append]

/-- The run when the entry point is called and returns `r`. -/
theorem main_of_return (hargc : argc = 2) (h1 : (openRes h argv w).1 ≠ -1)
    (h2 : (fstatRes h argv w).1 ≠ -1) (h3 : (mmapRes h argv w).1 ≠ MAP_FAILED)
    (h4 : (readRes h argv w).1 ≠ -1) (r : Int) (h5 : callRes h argv w = some r) :
    main h argc argv w =
      ⟨[evOpen argv, evFstat h argv w, evMmap h argv w, evRead h argv w,
          Event.stdout (puts "jumping to 0x1000"), evCall h argv w,
          Event.stdout (puts (if r = 0 then "success" else "failure"))],
        some 0⟩ := by
  simp only [openRes, fstatRes, mmapRes, readRes, callRes, st_size] at h1 h2 h3 h4 h5
  by_cases hr : r = 0
  · subst hr
    simp only [main, hargc, h1, h2, h3, h4, h5, evOpen, evFstat, evMmap, evRead, evCall, openRes,
      fstatRes, mmapRes, readRes, st_size, ne_eq, not_true_eq_false, not_false_eq_true, if_true, if_false,
    List.cons_append, List.nil_append]
  · have hr2 : ¬ (0 = r) := fun e => hr e.symm
    simp only [main, hargc, h1, h2, h3, h4, h5, hr, hr2, evOpen, evFstat, evMmap, evRead, evCall,
      openRes, fstatRes, mmapRes, readRes, st_size, ne_eq, not_true_eq_false, not_false_eq_true, if_true, if_false,
    List.cons_append, List.nil_append]

/-- No call failed exactly when each of the four succeeded. -/
theorem failedOp_eq_none :
    failedOp h argv w = none ↔
      (openRes h argv w).1 ≠ -1 ∧ (fstatRes h argv w).1 ≠ -1 ∧
        (mmapRes h argv w).1 ≠ MAP_FAILED ∧ (readRes h argv w).1 ≠ -1 := by
  unfold failedOp
  split_ifs <;> simp_all

/-- With two arguments a run of `main` has one of six shapes. -/
theorem run_cases (hargc : argc = 2) :
    ((openRes h argv w).1 = -1 ∧ failedOp h argv w = some Op.open_ ∧
      main h argc argv w =
        ⟨[evOpen argv, Event.stderr (perror "open" (h.strerror_errno (openRes h argv w).2))],
          some 1⟩) ∨
    ((openRes h argv w).1 ≠ -1 ∧ (fstatRes h argv w).1 = -1 ∧
      failedOp h argv w = some Op.fstat ∧
      main h argc argv w =
        ⟨[evOpen argv, evFstat h argv w,
            Event.stderr (perror "fstat" (h.strerror_errno (fstatRes h argv w).2.2))],
          some 1⟩) ∨
    ((openRes h argv w).1 ≠ -1 ∧ (fstatRes h argv w).1 ≠ -1 ∧
      (mmapRes h argv w).1 = MAP_FAILED ∧ failedOp h argv w = some Op.mmap ∧
      main h argc argv w =
        ⟨[evOpen argv, evFstat h argv w, evMmap h argv w,
            Event.stderr (perror "mmap" (h.strerror_errno (mmapRes h argv w).2))],
          some 1⟩) ∨
    ((openRes h argv w).1 ≠ -1 ∧ (fstatRes h argv w).1 ≠ -1 ∧
      (mmapRes h argv w).1 ≠ MAP_FAILED ∧ (readRes h argv w).1 = -1 ∧
      failedOp h argv w = some Op.read ∧
      main h argc argv w =
        ⟨[evOpen argv, evFstat h argv w, evMmap h argv w, evRead h argv w,
            Event.stderr (perror "read" (h.strerror_errno (readRes h argv w).2))],
          some 1⟩) ∨
    ((openRes h argv w).1 ≠ -1 ∧ (fstatRes h argv w).1 ≠ -1 ∧
      (mmapRes h argv w).1 ≠ MAP_FAILED ∧ (readRes h argv w).1 ≠ -1 ∧
      failedOp h argv w = none ∧ callRes h argv w = none ∧
      main h argc argv w =
        ⟨[evOpen argv, evFstat h argv w, evMmap h argv w, evRead h argv w,
            Event.stdout (puts "jumping to 0x1000"), evCall h argv w],
          none⟩) ∨
    ((openRes h argv w).1 ≠ -1 ∧ (fstatRes h argv w).1 ≠ -1 ∧
      (mmapRes h argv w).1 ≠ MAP_FAILED ∧ (readRes h argv w).1 ≠ -1 ∧
      failedOp h argv w = none ∧ ∃ r : Int, callRes h argv w = some r ∧
      main h argc argv w =
        ⟨[evOpen argv, evFstat h argv w, evMmap h argv w, evRead h argv w,
            Event.stdout (puts "jumping to 0x1000"), evCall h argv w,
            Event.stdout (puts (if r = 0 then "success" else "failure"))],
          some 0⟩) := by
  by_cases h1 : (openRes h argv w).1 = -1
  · exact Or.inl ⟨h1, by simp [failedOp, h1], main_of_open h argc argv w hargc h1⟩
  by_cases h2 : (fstatRes h argv w).1 = -1
  · exact Or.inr (Or.inl ⟨h1, h2, by simp [failedOp, h1, h2], main_of_fstat h argc argv w hargc h1 h2⟩)
  by_cases h3 : (mmapRes h argv w).1 = MAP_FAILED
  · exact Or.inr (Or.inr (Or.inl ⟨h1, h2, h3, by simp [failedOp, h1, h2, h3],
      main_of_mmap h argc argv w hargc h1 h2 h3⟩))
  by_cases h4 : (readRes h argv w).1 = -1
  · exact Or.inr (Or.inr (Or.inr (Or.inl ⟨h1, h2, h3, h4, by simp [failedOp, h1, h2, h3, h4],
      main_of_read h argc argv w hargc h1 h2 h3 h4⟩)))
  have hnone : failedOp h argv w = none := by simp [failedOp, h1, h2, h3, h4]
  cases h5 : callRes h argv w with
  | none =>
    exact Or.inr (Or.inr (Or.inr (Or.inr (Or.inl ⟨h1, h2, h3, h4, hnone, rfl,
      main_of_hang h argc argv w hargc h1 h2 h3 h4 h5⟩))))
  | some r =>
    exact Or.inr (Or.inr (Or.inr (Or.inr (Or.inr ⟨h1, h2, h3, h4, hnone, r, rfl,
      main_of_return h argc argv w hargc h1 h2 h3 h4 r h5⟩))))

/-- The line announcing the jump, as `puts` writes it. -/
theorem puts_jumping : puts "jumping to 0x1000" = "jumping to 0x1000\n" := by decide

/-- The result line, as `puts` writes it. -/
theorem puts_result (r : Int) :
    puts (if r = 0 then "success" else "failure") =
      if r = 0 then "success\n" else "failure\n" := by
  split_ifs <;> decide

/-- A byte count in the range of `off_t` converts to `size_t` unchanged. -/
theorem to_size_t_of_nonneg (x : Int) (h0 : 0 ≤ x) (h1 : x < 2 ^ 63) :
    (to_size_t x : Int) = x := by
  unfold to_size_t
  have h2 : x % 2 ^ 64 = x := Int.emod_eq_of_lt h0 (by omega)
  rw [h2]
  exact Int.toNat_of_nonneg h0

/-- The same for a length given as a natural number. -/
theorem to_size_t_natCast (n : Nat) (h1 : n < 2 ^ 63) : to_size_t (n : Int) = n := by
  have := to_size_t_of_nonneg (n : Int) (by positivity) (by exact_mod_cast h1)
  exact_mod_cast this

end Shape

/-! ## The claims -/

section Claims

variable {σ : Type}

/-- C1. With any argument count other than two (`argc ≠ 2`), `main` does
exactly one thing: it writes the usage line to standard output.  It returns
1, and its trace holds no `open`, `fstat`, `mmap`, `read` or entry-point
call. -/
theorem usage_error_performs_no_file_operation (h : Host σ) (argc : Int) (argv : List String) (w : σ)
    (hargc : argc ≠ 2) :
    (main h argc argv w).trace = [Event.stdout ("Usage: " ++ argv.getD 0 "(null)" ++ " <file>\n")] ∧
    (main h argc argv w).status = some 1 ∧
    stdout_of (main h argc argv w).trace = ["Usage: " ++ argv.getD 0 "(null)" ++ " <file>\n"] ∧
    stderr_of (main h argc argv w).trace = [] ∧
    ops (main h argc argv w).trace = [] := by
  rw [main_of_usage h argc argv w hargc]
  simp [printf_usage, stdout_of, stderr_of, ops]

/-- C1 at a concrete input: the loader started with no file argument (`argc = 1`). -/
theorem usage_error_performs_no_file_operation_witness :
    (main (toyHost [0x90, 0xc3] none 4096 (some 0)) 1 ["loader"] World.init).trace =
      [Event.stdout ("Usage: " ++ ["loader"].getD 0 "(null)" ++ " <file>\n")] ∧
    (main (toyHost [0x90, 0xc3] none 4096 (some 0)) 1 ["loader"] World.init).status = some 1 ∧
    stdout_of (main (toyHost [0x90, 0xc3] none 4096 (some 0)) 1 ["loader"] World.init).trace =
      ["Usage: " ++ ["loader"].getD 0 "(null)" ++ " <file>\n"] ∧
    stderr_of (main (toyHost [0x90, 0xc3] none 4096 (some 0)) 1 ["loader"] World.init).trace = [] ∧
    ops (main (toyHost [0x90, 0xc3] none 4096 (some 0)) 1 ["loader"] World.init).trace = [] :=
  usage_error_performs_no_file_operation _ 1 ["loader"] World.init (by decide)

/-- C2. With one argument, when one of `open`, `fstat`, `mmap`, `read` fails
(`op` is the first that does), `main` returns 1, writes to standard error
exactly the `perror` line that starts with the name of `op`, issues the
operations up to `op` and none after it, writes nothing to standard output and
never calls the entry point; when `open` fails neither `mmap` nor `read` is
issued. -/
theorem syscall_failure_terminates (h : Host σ) (argc : Int) (argv : List String) (w : σ) (op : Op)
    (hargc : argc = 2) (hfail : failedOp h argv w = some op) :
    (main h argc argv w).status = some 1 ∧
    op.label ∈ ["open", "fstat", "mmap", "read"] ∧
    stderr_of (main h argc argv w).trace =
      [op.label ++ ": " ++ h.strerror_errno (worldAfter h argv w op) ++ "\n"] ∧
    ops (main h argc argv w).trace = opsUpTo op ∧
    stdout_of (main h argc argv w).trace = [] ∧
    Op.call ∉ ops (main h argc argv w).trace ∧
    (op = Op.open_ →
      Op.fstat ∉ ops (main h argc argv w).trace ∧ Op.mmap ∉ ops (main h argc argv w).trace ∧
        Op.read ∉ ops (main h argc argv w).trace) := by
  rcases run_cases h argc argv w hargc with ⟨_, hf, hm⟩ | ⟨_, _, hf, hm⟩ | ⟨_, _, _, hf, hm⟩ |
    ⟨_, _, _, _, hf, hm⟩ | ⟨_, _, _, _, hf, _, _⟩ | ⟨_, _, _, _, hf, _, _, _⟩ <;>
  rw [hf] at hfail <;>
  first
  | (injection hfail with hop
     subst hop
     rw [hm]
     simp [ops, stdout_of, stderr_of, perror, Op.label, worldAfter, opsUpTo, evOpen, evFstat,
       evMmap, evRead])
  | exact absurd hfail (by simp)

/-- C2 at a concrete input: a zero-length file, for which the concrete host refuses the mapping. -/
theorem syscall_failure_terminates_witness :
    (main (toyHost [] none 4096 (some 0)) 2 ["loader", "mod.bin"] World.init).status = some 1 ∧
    Op.mmap.label ∈ ["open", "fstat", "mmap", "read"] ∧
    stderr_of (main (toyHost [] none 4096 (some 0)) 2 ["loader", "mod.bin"] World.init).trace =
      [Op.mmap.label ++ ": " ++ (toyHost [] none 4096 (some 0)).strerror_errno
        (worldAfter (toyHost [] none 4096 (some 0)) ["loader", "mod.bin"] World.init Op.mmap)
        ++ "\n"] ∧
    ops (main (toyHost [] none 4096 (some 0)) 2 ["loader", "mod.bin"] World.init).trace =
      opsUpTo Op.mmap ∧
    stdout_of (main (toyHost [] none 4096 (some 0)) 2 ["loader", "mod.bin"] World.init).trace = [] ∧
    Op.call ∉ ops (main (toyHost [] none 4096 (some 0)) 2 ["loader", "mod.bin"] World.init).trace ∧
    (Op.mmap = Op.open_ →
      Op.fstat ∉ ops (main (toyHost [] none 4096 (some 0)) 2 ["loader", "mod.bin"]
        World.init).trace ∧
      Op.mmap ∉ ops (main (toyHost [] none 4096 (some 0)) 2 ["loader", "mod.bin"]
        World.init).trace ∧
      Op.read ∉ ops (main (toyHost [] none 4096 (some 0)) 2 ["loader", "mod.bin"]
        World.init).trace) :=
  syscall_failure_terminates _ 2 ["loader", "mod.bin"] World.init Op.mmap (by decide) (by decide)

/-- C3. The value returned by `main` depends only on the argument count and
on the outcomes of the four system calls: it is 1 exactly when `argc ≠ 2` or
one of `open`, `fstat`, `mmap`, `read` fails; it is 0 whenever the entry point
was called and returned, whatever integer it returned; and two runs that agree
on the argument-count test and on whether a system call failed, and in which
`main` returns, return the same value. -/
theorem exit_status_ignores_entry_result (h : Host σ) (argc : Int) (argv : List String) (w : σ) :
    ((main h argc argv w).status = some 1 ↔ argc ≠ 2 ∨ failedOp h argv w ≠ none) ∧
    (∀ r : Int, argc = 2 → failedOp h argv w = none → callRes h argv w = some r →
      (main h argc argv w).status = some 0) ∧
    (∀ r : Int, Op.call ∈ ops (main h argc argv w).trace → callRes h argv w = some r →
      (main h argc argv w).status = some 0) ∧
    (∀ (h2 : Host σ) (argc2 : Int) (argv2 : List String) (w2 : σ),
      (argc = 2 ↔ argc2 = 2) →
      (failedOp h argv w = none ↔ failedOp h2 argv2 w2 = none) →
      (main h argc argv w).status ≠ none → (main h2 argc2 argv2 w2).status ≠ none →
      (main h argc argv w).status = (main h2 argc2 argv2 w2).status) := by
  have key : ∀ (g : Host σ) (n : Int) (a : List String) (v : σ),
      ((main g n a v).status = some 1 ↔ n ≠ 2 ∨ failedOp g a v ≠ none) ∧
      ((main g n a v).status = some 1 ∨ (main g n a v).status = some 0 ∨
        (main g n a v).status = none) ∧
      (∀ r : Int, Op.call ∈ ops (main g n a v).trace → callRes g a v = some r →
        (main g n a v).status = some 0) := by
    intro g n a v
    by_cases hargc : n = 2
    · subst hargc
      rcases run_cases g 2 a v rfl with ⟨_, hf, hm⟩ | ⟨_, _, hf, hm⟩ | ⟨_, _, _, hf, hm⟩ |
        ⟨_, _, _, _, hf, hm⟩ | ⟨_, _, _, _, hf, hc, hm⟩ | ⟨_, _, _, _, hf, r, hc, hm⟩ <;>
      first
      | simp [hm, hf, hc, ops, evOpen, evFstat, evMmap, evRead, evCall]
      | simp [hm, hf, ops, evOpen, evFstat, evMmap, evRead, evCall]
    · simp [main_of_usage g n a v hargc, hargc, ops]
  refine ⟨(key h argc argv w).1, ?_, (key h argc argv w).2.2, ?_⟩
  · intro r hargc hok hret
    have h1 := (key h argc argv w).1
    rcases run_cases h argc argv w hargc with ⟨_, hf, _⟩ | ⟨_, _, hf, _⟩ | ⟨_, _, _, hf, _⟩ |
      ⟨_, _, _, _, hf, _⟩ | ⟨_, _, _, _, _, hc, _⟩ | ⟨_, _, _, _, _, _, _, hm⟩
    · simp [hf] at hok
    · simp [hf] at hok
    · simp [hf] at hok
    · simp [hf] at hok
    · simp [hc] at hret
    · simp [hm]
  · intro h2 argc2 argv2 w2 hlen hfail hs hs2
    have k1 := key h argc argv w
    have k2 := key h2 argc2 argv2 w2
    by_cases e1 : (main h argc argv w).status = some 1
    · have : (main h2 argc2 argv2 w2).status = some 1 := by
        rw [k2.1]
        rcases k1.1.mp e1 with hne | hne
        · exact Or.inl (fun e => hne (hlen.mpr e))
        · exact Or.inr (fun e => hne (hfail.mpr e))
      rw [e1, this]
    · have e2 : ¬ (main h2 argc2 argv2 w2).status = some 1 := by
        intro e
        apply e1
        rw [k1.1]
        rcases k2.1.mp e with hne | hne
        · exact Or.inl (fun e => hne (hlen.mp e))
        · exact Or.inr (fun e => hne (hfail.mp e))
      rcases k1.2.1 with a | a | a
      · exact absurd a e1
      · rcases k2.2.1 with b | b | b
        · exact absurd b e2
        · rw [a, b]
        · exact absurd b hs2
      · exact absurd a hs

/-- C4. When the four system calls succeed and the entry point returns `r`,
`main` performs the four calls, writes the line `jumping to 0x1000`, then
transfers control, then writes one result line; standard output is exactly
those two lines, and the result line is `success` if and only if `r = 0` and
`failure` for every other `r`. -/
theorem result_line_reports_entry_result (h : Host σ) (argc : Int) (argv : List String) (w : σ) (r : Int)
    (hargc : argc = 2) (hok : failedOp h argv w = none)
    (hret : callRes h argv w = some r) :
    (main h argc argv w).trace =
      [evOpen argv, evFstat h argv w, evMmap h argv w, evRead h argv w,
        Event.stdout "jumping to 0x1000\n",
        Event.call ((mmapRes h argv w).1 + 0x1000) ⟨some h.dlsym⟩ (readRes h argv w).2,
        Event.stdout (if r = 0 then "success\n" else "failure\n")] ∧
    stdout_of (main h argc argv w).trace =
      ["jumping to 0x1000\n", if r = 0 then "success\n" else "failure\n"] ∧
    (stdout_of (main h argc argv w).trace = ["jumping to 0x1000\n", "success\n"] ↔ r = 0) ∧
    (stdout_of (main h argc argv w).trace = ["jumping to 0x1000\n", "failure\n"] ↔ r ≠ 0) := by
  obtain ⟨h1, h2, h3, h4⟩ := (failedOp_eq_none h argv w).mp hok
  rw [main_of_return h argc argv w hargc h1 h2 h3 h4 r hret, puts_jumping, puts_result]
  refine ⟨by simp [evCall], by simp [stdout_of, evOpen, evFstat, evMmap, evRead, evCall], ?_, ?_⟩
  · by_cases hr : r = 0 <;> simp [stdout_of, evOpen, evFstat, evMmap, evRead, evCall, hr]
  · by_cases hr : r = 0 <;> simp [stdout_of, evOpen, evFstat, evMmap, evRead, evCall, hr]

/-- C4 at a concrete input: a two-byte file whose entry point returns `-1`. -/
theorem result_line_reports_entry_result_witness :
    (main (toyHost [0x90, 0xc3] none 4096 (some (-1))) 2 ["loader", "mod.bin"] World.init).trace =
      [evOpen ["loader", "mod.bin"],
        evFstat (toyHost [0x90, 0xc3] none 4096 (some (-1))) ["loader", "mod.bin"] World.init,
        evMmap (toyHost [0x90, 0xc3] none 4096 (some (-1))) ["loader", "mod.bin"] World.init,
        evRead (toyHost [0x90, 0xc3] none 4096 (some (-1))) ["loader", "mod.bin"] World.init,
        Event.stdout "jumping to 0x1000\n",
        Event.call
          ((mmapRes (toyHost [0x90, 0xc3] none 4096 (some (-1))) ["loader", "mod.bin"]
            World.init).1 + 0x1000)
          ⟨some (toyHost [0x90, 0xc3] none 4096 (some (-1))).dlsym⟩
          (readRes (toyHost [0x90, 0xc3] none 4096 (some (-1))) ["loader", "mod.bin"]
            World.init).2,
        Event.stdout (if (-1 : Int) = 0 then "success\n" else "failure\n")] ∧
    stdout_of (main (toyHost [0x90, 0xc3] none 4096 (some (-1))) 2 ["loader", "mod.bin"]
        World.init).trace =
      ["jumping to 0x1000\n", if (-1 : Int) = 0 then "success\n" else "failure\n"] ∧
    (stdout_of (main (toyHost [0x90, 0xc3] none 4096 (some (-1))) 2 ["loader", "mod.bin"]
        World.init).trace = ["jumping to 0x1000\n", "success\n"] ↔ (-1 : Int) = 0) ∧
    (stdout_of (main (toyHost [0x90, 0xc3] none 4096 (some (-1))) 2 ["loader", "mod.bin"]
        World.init).trace = ["jumping to 0x1000\n", "failure\n"] ↔ (-1 : Int) ≠ 0) :=
  result_line_reports_entry_result _ 2 ["loader", "mod.bin"] World.init (-1) (by decide)
    (by decide) (by decide)

/-- C5. When `open` and `fstat` succeed, `main` issues `mmap` exactly once,
with address hint `NULL`, length the reported `st_size` converted to `size_t`
(which is `st_size` itself for every byte count in the range of `off_t`),
protection `PROT_READ | PROT_WRITE | PROT_EXEC`, flags `MAP_PRIVATE`, the
descriptor returned by `open`, and offset 0. -/
theorem mmap_request_covers_file (h : Host σ) (argc : Int) (argv : List String) (w : σ)
    (hargc : argc = 2) (hopen : (openRes h argv w).1 ≠ -1)
    (hfstat : (fstatRes h argv w).1 ≠ -1) :
    (ops (main h argc argv w).trace).count Op.mmap = 1 ∧
    Event.sys_mmap NULL (to_size_t (st_size h argv w)) (PROT_READ ||| PROT_WRITE ||| PROT_EXEC)
      MAP_PRIVATE (openRes h argv w).1 0 ∈ (main h argc argv w).trace ∧
    (∀ (addr length prot flags : Nat) (fd offset : Int),
      Event.sys_mmap addr length prot flags fd offset ∈ (main h argc argv w).trace →
        addr = NULL ∧ length = to_size_t (st_size h argv w) ∧
        prot = PROT_READ ||| PROT_WRITE ||| PROT_EXEC ∧ flags = MAP_PRIVATE ∧
        fd = (openRes h argv w).1 ∧ offset = 0) ∧
    (0 ≤ st_size h argv w → st_size h argv w < 2 ^ 63 →
      ∀ (addr length prot flags : Nat) (fd offset : Int),
        Event.sys_mmap addr length prot flags fd offset ∈ (main h argc argv w).trace →
          (length : Int) = st_size h argv w) := by
  have base : (ops (main h argc argv w).trace).count Op.mmap = 1 ∧
      Event.sys_mmap NULL (to_size_t (st_size h argv w))
        (PROT_READ ||| PROT_WRITE ||| PROT_EXEC) MAP_PRIVATE (openRes h argv w).1 0 ∈
          (main h argc argv w).trace ∧
      (∀ (addr length prot flags : Nat) (fd offset : Int),
        Event.sys_mmap addr length prot flags fd offset ∈ (main h argc argv w).trace →
          addr = NULL ∧ length = to_size_t (st_size h argv w) ∧
          prot = PROT_READ ||| PROT_WRITE ||| PROT_EXEC ∧ flags = MAP_PRIVATE ∧
          fd = (openRes h argv w).1 ∧ offset = 0) := by
    rcases run_cases h argc argv w hargc with ⟨e, _⟩ | ⟨_, e, _⟩ | ⟨_, _, _, _, hm⟩ |
      ⟨_, _, _, _, _, hm⟩ | ⟨_, _, _, _, _, _, hm⟩ | ⟨_, _, _, _, _, _, _, hm⟩
    · exact absurd e hopen
    · exact absurd e hfstat
    all_goals
      rw [hm]
      refine ⟨by simp [ops, evOpen, evFstat, evMmap, evRead, evCall],
        by simp [evOpen, evFstat, evMmap, evRead, evCall], ?_⟩
      intro addr length prot flags fd offset hmem
      simp [evOpen, evFstat, evMmap, evRead, evCall] at hmem
      obtain ⟨a, b, c, d, e, f⟩ := hmem
      exact ⟨a, b, c, d, e, f⟩
  refine ⟨base.1, base.2.1, base.2.2, ?_⟩
  intro h0 h1 addr length prot flags fd offset hmem
  rw [(base.2.2 addr length prot flags fd offset hmem).2.1]
  exact to_size_t_of_nonneg _ h0 h1

/-- C5 at a concrete input: a two-byte file. -/
theorem mmap_request_covers_file_witness :
    (ops (main (toyHost [0x90, 0xc3] none 4096 (some 0)) 2 ["loader", "mod.bin"]
      World.init).trace).count Op.mmap = 1 ∧
    Event.sys_mmap NULL
      (to_size_t (st_size (toyHost [0x90, 0xc3] none 4096 (some 0)) ["loader", "mod.bin"]
        World.init))
      (PROT_READ ||| PROT_WRITE ||| PROT_EXEC) MAP_PRIVATE
      (openRes (toyHost [0x90, 0xc3] none 4096 (some 0)) ["loader", "mod.bin"] World.init).1 0 ∈
        (main (toyHost [0x90, 0xc3] none 4096 (some 0)) 2 ["loader", "mod.bin"] World.init).trace ∧
    (∀ (addr length prot flags : Nat) (fd offset : Int),
      Event.sys_mmap addr length prot flags fd offset ∈
          (main (toyHost [0x90, 0xc3] none 4096 (some 0)) 2 ["loader", "mod.bin"]
            World.init).trace →
        addr = NULL ∧
        length = to_size_t (st_size (toyHost [0x90, 0xc3] none 4096 (some 0))
          ["loader", "mod.bin"] World.init) ∧
        prot = PROT_READ ||| PROT_WRITE ||| PROT_EXEC ∧ flags = MAP_PRIVATE ∧
        fd = (openRes (toyHost [0x90, 0xc3] none 4096 (some 0)) ["loader", "mod.bin"]
          World.init).1 ∧
        offset = 0) ∧
    (0 ≤ st_size (toyHost [0x90, 0xc3] none 4096 (some 0)) ["loader", "mod.bin"] World.init →
      st_size (toyHost [0x90, 0xc3] none 4096 (some 0)) ["loader", "mod.bin"] World.init
        < 2 ^ 63 →
      ∀ (addr length prot flags : Nat) (fd offset : Int),
        Event.sys_mmap addr length prot flags fd offset ∈
            (main (toyHost [0x90, 0xc3] none 4096 (some 0)) 2 ["loader", "mod.bin"]
              World.init).trace →
          (length : Int) =
            st_size (toyHost [0x90, 0xc3] none 4096 (some 0)) ["loader", "mod.bin"]
              World.init) :=
  mmap_request_covers_file _ 2 ["loader", "mod.bin"] World.init (by decide) (by decide)
    (by decide)

/-- C6. Round trip.  Let `file` be the on-disk bytes of the opened file, of
the length `fstat` reports.  Assume the kernel honours the two calls as POSIX
describes them in the states where `main` makes them: a successful private
mapping of the descriptor at offset 0 shows the file's bytes, and a
successful `read` of `n` bytes stores the first `n` bytes of the file at the
buffer and changes no other byte.  Then, when all four calls succeed, control
is transferred in a state where every byte of the mapped region at an offset
below the file size equals the file's byte at that offset, whatever the size
and whatever count `read` returned. -/
theorem mapped_bytes_equal_file (h : Host σ) (argc : Int) (argv : List String) (w : σ) (file : List Nat)
    (hargc : argc = 2) (hok : failedOp h argv w = none)
    (hsize : st_size h argv w = (file.length : Int)) (hrange : file.length < 2 ^ 63)
    (hmap : ∀ length prot : Nat,
      (h.sys_mmap NULL length prot MAP_PRIVATE (openRes h argv w).1 0
        (fstatRes h argv w).2.2).1 ≠ MAP_FAILED →
      ∀ i, i < length → i < file.length →
        h.mem (h.sys_mmap NULL length prot MAP_PRIVATE (openRes h argv w).1 0
            (fstatRes h argv w).2.2).2
          ((h.sys_mmap NULL length prot MAP_PRIVATE (openRes h argv w).1 0
            (fstatRes h argv w).2.2).1 + i) = file.getD i 0)
    (hread : ∀ buf count : Nat,
      (h.sys_read (openRes h argv w).1 buf count (mmapRes h argv w).2).1 ≠ -1 →
      ∀ a, h.mem (h.sys_read (openRes h argv w).1 buf count (mmapRes h argv w).2).2 a =
        store file 0 buf (h.sys_read (openRes h argv w).1 buf count (mmapRes h argv w).2).1.toNat
          (h.mem (mmapRes h argv w).2) a) :
    (∃ func ctx w4, Event.call func ctx w4 ∈ (main h argc argv w).trace) ∧
    ∀ func ctx w4, Event.call func ctx w4 ∈ (main h argc argv w).trace →
      ∀ i, i < file.length → h.mem w4 ((mmapRes h argv w).1 + i) = file.getD i 0 := by
  obtain ⟨h1, h2, h3, h4⟩ := (failedOp_eq_none h argv w).mp hok
  have hlen : to_size_t (st_size h argv w) = file.length := by
    rw [hsize]
    exact to_size_t_natCast _ hrange
  have hbytes : ∀ i, i < file.length →
      h.mem (readRes h argv w).2 ((mmapRes h argv w).1 + i) = file.getD i 0 := by
    intro i hi
    have hr := hread (mmapRes h argv w).1 (to_size_t (st_size h argv w)) h4
      ((mmapRes h argv w).1 + i)
    have hm := hmap (to_size_t (st_size h argv w)) (PROT_READ ||| PROT_WRITE ||| PROT_EXEC) h3
      i (by omega) hi
    change h.mem (readRes h argv w).2 ((mmapRes h argv w).1 + i) = _ at hr
    change h.mem (mmapRes h argv w).2 ((mmapRes h argv w).1 + i) = _ at hm
    rw [hr]
    unfold store
    split_ifs
    · simp
    · exact hm
  have hcall : ∀ func ctx w4, Event.call func ctx w4 ∈ (main h argc argv w).trace →
      w4 = (readRes h argv w).2 := by
    intro func ctx w4 hmem
    cases h5 : callRes h argv w with
    | none =>
      rw [main_of_hang h argc argv w hargc h1 h2 h3 h4 h5] at hmem
      simp [evOpen, evFstat, evMmap, evRead, evCall] at hmem
      exact hmem.2.2
    | some r =>
      rw [main_of_return h argc argv w hargc h1 h2 h3 h4 r h5] at hmem
      simp [evOpen, evFstat, evMmap, evRead, evCall] at hmem
      exact hmem.2.2
  constructor
  · refine ⟨(mmapRes h argv w).1 + 0x1000, ⟨some h.dlsym⟩, (readRes h argv w).2, ?_⟩
    cases h5 : callRes h argv w with
    | none =>
      rw [main_of_hang h argc argv w hargc h1 h2 h3 h4 h5]
      simp [evCall]
    | some r =>
      rw [main_of_return h argc argv w hargc h1 h2 h3 h4 r h5]
      simp [evCall]
  · intro func ctx w4 hmem i hi
    rw [hcall func ctx w4 hmem]
    exact hbytes i hi

/-- C6 at a concrete input: a three-byte file of which `read` returns only two bytes. -/
theorem mapped_bytes_equal_file_witness :
    (∃ func ctx w4, Event.call func ctx w4 ∈
      (main (toyHost [0x90, 0xc3, 7] none 2 (some 0)) 2 ["loader", "mod.bin"] World.init).trace) ∧
    ∀ func ctx w4, Event.call func ctx w4 ∈
        (main (toyHost [0x90, 0xc3, 7] none 2 (some 0)) 2 ["loader", "mod.bin"] World.init).trace →
      ∀ i, i < [0x90, 0xc3, 7].length →
        (toyHost [0x90, 0xc3, 7] none 2 (some 0)).mem w4
          ((mmapRes (toyHost [0x90, 0xc3, 7] none 2 (some 0)) ["loader", "mod.bin"]
            World.init).1 + i) = [0x90, 0xc3, 7].getD i 0 :=
  mapped_bytes_equal_file (toyHost [0x90, 0xc3, 7] none 2 (some 0)) 2 ["loader", "mod.bin"]
    World.init [0x90, 0xc3, 7] (by decide) (by decide) (by decide) (by decide)
    (by
      intro length prot hne i hi _
      simp only [toyHost, openRes, fstatRes] at hne ⊢
      split_ifs at hne ⊢ <;> simp_all [store])
    (by
      intro buf count hne a
      simp only [toyHost, openRes, fstatRes, mmapRes, st_size] at hne ⊢
      split_ifs at hne ⊢ <;> simp only [Int.toNat_ofNat] <;> simp_all [store, World.init])

/-- C7. The context type has exactly one member (two contexts with the same
`dlsym` member are equal), and in every run the entry point, if called, is
handed a context whose member is the host's `dlsym`: a query made through it
returns what the host's `dlsym` returns, an address for a name it resolves
and `NULL` for a name it does not, and is never a call through a null
pointer.  With one argument and four successful system calls the entry point
is called. -/
theorem context_carries_host_resolver (h : Host σ) (argc : Int) (argv : List String) (w : σ) :
    (∀ a b : module_init_ctx_t, a.dlsym = b.dlsym → a = b) ∧
    (∀ func ctx w4, Event.call func ctx w4 ∈ (main h argc argv w).trace →
      ctx.dlsym = some h.dlsym ∧
      (∀ handle symbol, ctx.query handle symbol = some (h.dlsym handle symbol)) ∧
      (∀ handle symbol, h.dlsym handle symbol = NULL → ctx.query handle symbol = some NULL) ∧
      (∀ handle symbol, ctx.query handle symbol ≠ none)) ∧
    (argc = 2 → failedOp h argv w = none →
      ∃ func w4, Event.call func ⟨some h.dlsym⟩ w4 ∈ (main h argc argv w).trace) := by
  have hctx : ∀ func ctx w4, Event.call func ctx w4 ∈ (main h argc argv w).trace →
      ctx = ⟨some h.dlsym⟩ := by
    intro func ctx w4 hmem
    by_cases hargc : argc = 2
    · rcases run_cases h argc argv w hargc with ⟨_, _, hm⟩ | ⟨_, _, _, hm⟩ | ⟨_, _, _, _, hm⟩ |
        ⟨_, _, _, _, _, hm⟩ | ⟨_, _, _, _, _, _, hm⟩ | ⟨_, _, _, _, _, _, _, hm⟩ <;>
      rw [hm] at hmem <;>
      simp [evOpen, evFstat, evMmap, evRead, evCall] at hmem <;>
      exact hmem.2.1
    · rw [main_of_usage h argc argv w hargc] at hmem
      simp at hmem
  refine ⟨?_, ?_, ?_⟩
  · rintro ⟨a⟩ ⟨b⟩ hab
    simp only at hab
    rw [hab]
  · intro func ctx w4 hmem
    rw [hctx func ctx w4 hmem]
    refine ⟨rfl, fun _ _ => rfl, ?_, ?_⟩
    · intro handle symbol hnull
      simp [module_init_ctx_t.query, hnull]
    · intro handle symbol
      simp [module_init_ctx_t.query]
  · intro hargc hok
    obtain ⟨h1, h2, h3, h4⟩ := (failedOp_eq_none h argv w).mp hok
    refine ⟨(mmapRes h argv w).1 + 0x1000, (readRes h argv w).2, ?_⟩
    cases h5 : callRes h argv w with
    | none =>
      rw [main_of_hang h argc argv w hargc h1 h2 h3 h4 h5]
      simp [evCall]
    | some r =>
      rw [main_of_return h argc argv w hargc h1 h2 h3 h4 r h5]
      simp [evCall]

/-- C8. When `open`, `fstat` and `mmap` succeed, `main` issues `read` once,
on the descriptor `open` returned, into the address `mmap` returned, asking
for `st_size` bytes (as `size_t`).  For every non-negative result, short or
full, it goes on to write `jumping to 0x1000` and to call the entry point and
does not return 1; it returns 1 at this point only when the result is
negative. -/
theorem short_read_is_not_an_error (h : Host σ) (argc : Int) (argv : List String) (w : σ)
    (hargc : argc = 2) (hopen : (openRes h argv w).1 ≠ -1)
    (hfstat : (fstatRes h argv w).1 ≠ -1) (hmmap : (mmapRes h argv w).1 ≠ MAP_FAILED) :
    (ops (main h argc argv w).trace).count Op.read = 1 ∧
    (∀ (fd : Int) (buf count : Nat), Event.sys_read fd buf count ∈ (main h argc argv w).trace →
      fd = (openRes h argv w).1 ∧ buf = (mmapRes h argv w).1 ∧
      count = to_size_t (st_size h argv w) ∧
      (0 ≤ st_size h argv w → st_size h argv w < 2 ^ 63 → (count : Int) = st_size h argv w)) ∧
    (0 ≤ (readRes h argv w).1 →
      (main h argc argv w).status ≠ some 1 ∧
      stdout_of (main h argc argv w).trace ≠ [] ∧
      (stdout_of (main h argc argv w).trace).head? = some "jumping to 0x1000\n" ∧
      (ops (main h argc argv w).trace).count Op.call = 1 ∧
      Event.call ((mmapRes h argv w).1 + 0x1000) ⟨some h.dlsym⟩ (readRes h argv w).2 ∈
        (main h argc argv w).trace) ∧
    ((main h argc argv w).status = some 1 → (readRes h argv w).1 < 0) ∧
    ((main h argc argv w).status = some 1 ↔ (readRes h argv w).1 = -1) := by
  have hjump := puts_jumping
  rcases run_cases h argc argv w hargc with ⟨e, _⟩ | ⟨_, e, _⟩ | ⟨_, _, e, _⟩ |
    ⟨_, _, _, h4, hf, hm⟩ | ⟨_, _, _, h4, hf, _, hm⟩ | ⟨_, _, _, h4, hf, _, _, hm⟩
  · exact absurd e hopen
  · exact absurd e hfstat
  · exact absurd e hmmap
  · rw [hm]
    refine ⟨by simp [ops, evOpen, evFstat, evMmap, evRead], ?_, ?_, ?_, ?_⟩
    · intro fd buf count hmem
      simp [evOpen, evFstat, evMmap, evRead] at hmem
      obtain ⟨a, b, c⟩ := hmem
      exact ⟨a, b, c, fun h0 hlt => by rw [c]; exact to_size_t_of_nonneg _ h0 hlt⟩
    · intro hpos
      rw [h4] at hpos
      exact absurd hpos (by decide)
    · intro _
      rw [h4]
      decide
    · simp [h4]
  · rw [hm]
    refine ⟨by simp [ops, evOpen, evFstat, evMmap, evRead, evCall], ?_, ?_, ?_, ?_⟩
    · intro fd buf count hmem
      simp [evOpen, evFstat, evMmap, evRead, evCall] at hmem
      obtain ⟨a, b, c⟩ := hmem
      exact ⟨a, b, c, fun h0 hlt => by rw [c]; exact to_size_t_of_nonneg _ h0 hlt⟩
    · intro _
      simp [ops, stdout_of, evOpen, evFstat, evMmap, evRead, evCall, hjump]
    · simp
    · simp [h4]
  · rw [hm]
    refine ⟨by simp [ops, evOpen, evFstat, evMmap, evRead, evCall], ?_, ?_, ?_, ?_⟩
    · intro fd buf count hmem
      simp [evOpen, evFstat, evMmap, evRead, evCall] at hmem
      obtain ⟨a, b, c⟩ := hmem
      exact ⟨a, b, c, fun h0 hlt => by rw [c]; exact to_size_t_of_nonneg _ h0 hlt⟩
    · intro _
      simp [ops, stdout_of, evOpen, evFstat, evMmap, evRead, evCall, hjump]
    · simp
    · simp [h4]

/-- C8 at a concrete input: `read` returns 2 of the 3 bytes asked for and the run goes on to the call. -/
theorem short_read_is_not_an_error_witness :
    (readRes (toyHost [0x90, 0xc3, 7] none 2 (some 0)) ["loader", "mod.bin"] World.init).1 = 2 ∧
    st_size (toyHost [0x90, 0xc3, 7] none 2 (some 0)) ["loader", "mod.bin"] World.init = 3 ∧
    (main (toyHost [0x90, 0xc3, 7] none 2 (some 0)) 2 ["loader", "mod.bin"] World.init).status
      ≠ some 1 ∧
    (ops (main (toyHost [0x90, 0xc3, 7] none 2 (some 0)) 2 ["loader", "mod.bin"]
      World.init).trace).count Op.call = 1 :=
  ⟨by decide, by decide,
    ((short_read_is_not_an_error (toyHost [0x90, 0xc3, 7] none 2 (some 0)) 2
      ["loader", "mod.bin"] World.init (by decide) (by decide) (by decide)
      (by decide)).2.2.1 (by decide)).1,
    ((short_read_is_not_an_error (toyHost [0x90, 0xc3, 7] none 2 (some 0)) 2
      ["loader", "mod.bin"] World.init (by decide) (by decide) (by decide)
      (by decide)).2.2.1 (by decide)).2.2.2.1⟩

/-- C9. When the four system calls succeed the entry point is called, once,
at the address `mmap` returned plus `0x1000` (4096), for every base address
and every file size: no size check stands in the way.  For a size of at most
`0x1000` bytes that address is not inside `[base, base + size)`, and for a
zero-length file the `mmap` request has length zero. -/
theorem entry_is_base_plus_0x1000 (h : Host σ) (argc : Int) (argv : List String) (w : σ)
    (hargc : argc = 2) (hok : failedOp h argv w = none) :
    (ops (main h argc argv w).trace).count Op.call = 1 ∧
    (∃ ctx w4, Event.call ((mmapRes h argv w).1 + 4096) ctx w4 ∈ (main h argc argv w).trace) ∧
    (∀ func ctx w4, Event.call func ctx w4 ∈ (main h argc argv w).trace →
      func = (mmapRes h argv w).1 + 0x1000 ∧
      (to_size_t (st_size h argv w) ≤ 0x1000 →
        ¬ ((mmapRes h argv w).1 ≤ func ∧
          func < (mmapRes h argv w).1 + to_size_t (st_size h argv w)))) ∧
    (st_size h argv w = 0 →
      ∀ (addr length prot flags : Nat) (fd offset : Int),
        Event.sys_mmap addr length prot flags fd offset ∈ (main h argc argv w).trace →
          length = 0) := by
  obtain ⟨h1, h2, h3, h4⟩ := (failedOp_eq_none h argv w).mp hok
  have hshape : ∃ post, (main h argc argv w).trace =
      [evOpen argv, evFstat h argv w, evMmap h argv w, evRead h argv w,
        Event.stdout (puts "jumping to 0x1000"), evCall h argv w] ++ post ∧
      (∀ e ∈ post, ∃ s, e = Event.stdout s) := by
    cases h5 : callRes h argv w with
    | none =>
      exact ⟨[], by rw [main_of_hang h argc argv w hargc h1 h2 h3 h4 h5]; simp, by simp⟩
    | some r =>
      exact ⟨[Event.stdout (puts (if r = 0 then "success" else "failure"))],
        by rw [main_of_return h argc argv w hargc h1 h2 h3 h4 r h5]; simp, by simp⟩
  obtain ⟨post, htrace, hpost⟩ := hshape
  have hops : ops post = [] := by
    clear htrace
    induction post with
    | nil => rfl
    | cons e t ih =>
      obtain ⟨s, rfl⟩ := hpost e (by simp)
      simp only [ops]
      exact ih (fun e he => hpost e (by simp [he]))
  have hopsApp : ∀ a b : List (Event σ), ops (a ++ b) = ops a ++ ops b := by
    intro a b
    induction a with
    | nil => rfl
    | cons e t ih => cases e <;> simp [ops, ih]
  rw [htrace]
  refine ⟨?_, ?_, ?_, ?_⟩
  · rw [hopsApp, hops]
    simp [ops, evOpen, evFstat, evMmap, evRead, evCall]
  · exact ⟨⟨some h.dlsym⟩, (readRes h argv w).2, by simp [evCall]⟩
  · intro func ctx w4 hmem
    have hf : func = (mmapRes h argv w).1 + 0x1000 := by
      simp only [List.mem_append, List.mem_cons] at hmem
      rcases hmem with hmem | hmem
      · simp [evOpen, evFstat, evMmap, evRead, evCall] at hmem
        exact hmem.1
      · obtain ⟨s, hs⟩ := hpost _ hmem
        cases hs
    refine ⟨hf, ?_⟩
    intro hsmall hin
    rw [hf] at hin
    omega
  · intro hzero addr length prot flags fd offset hmem
    simp only [List.mem_append, List.mem_cons] at hmem
    rcases hmem with hmem | hmem
    · simp [evOpen, evFstat, evMmap, evRead, evCall, hzero] at hmem
      rw [hmem.2.1]
      decide
    · obtain ⟨s, hs⟩ := hpost _ hmem
      cases hs

/-- C9 at a concrete input: a two-byte file, shorter than `0x1000`, whose entry point never returns. -/
theorem entry_is_base_plus_0x1000_witness :
    st_size (toyHost [0x90, 0xc3] none 4096 none) ["loader", "mod.bin"] World.init = 2 ∧
    (ops (main (toyHost [0x90, 0xc3] none 4096 none) 2 ["loader", "mod.bin"]
      World.init).trace).count Op.call = 1 ∧
    ∃ ctx w4, Event.call (toyBase + 4096) ctx w4 ∈
      (main (toyHost [0x90, 0xc3] none 4096 none) 2 ["loader", "mod.bin"] World.init).trace :=
  ⟨by decide,
    (entry_is_base_plus_0x1000 (toyHost [0x90, 0xc3] none 4096 none) 2 ["loader", "mod.bin"]
      World.init (by decide) (by decide)).1,
    (entry_is_base_plus_0x1000 (toyHost [0x90, 0xc3] none 4096 none) 2 ["loader", "mod.bin"]
      World.init (by decide) (by decide)).2.1⟩

/-- C10. In every run the external operations of `main` are an initial
segment of `open, fstat, mmap, read, call` in that order; none is performed
twice; and the entry point is called (exactly once) if and only if `argc = 2`
and all four system calls succeeded. -/
theorem control_flow_is_linear (h : Host σ) (argc : Int) (argv : List String) (w : σ) :
    ops (main h argc argv w).trace <+: [Op.open_, Op.fstat, Op.mmap, Op.read, Op.call] ∧
    (∀ op : Op, (ops (main h argc argv w).trace).count op ≤ 1) ∧
    ((ops (main h argc argv w).trace).count Op.call = 1 ↔
      argc = 2 ∧ failedOp h argv w = none) ∧
    (Op.call ∈ ops (main h argc argv w).trace ↔ argc = 2 ∧ failedOp h argv w = none) := by
  by_cases hargc : argc = 2
  · rcases run_cases h argc argv w hargc with ⟨_, hf, hm⟩ | ⟨_, _, hf, hm⟩ | ⟨_, _, _, hf, hm⟩ |
      ⟨_, _, _, _, hf, hm⟩ | ⟨_, _, _, _, hf, _, hm⟩ | ⟨_, _, _, _, hf, _, _, hm⟩ <;>
    rw [hm, hf] <;>
    simp only [ops, evOpen, evFstat, evMmap, evRead, evCall] <;>
    refine ⟨by decide, fun op => by cases op <;> decide, ?_, ?_⟩ <;>
    simp [hargc]
  · rw [main_of_usage h argc argv w hargc]
    simp only [ops]
    refine ⟨by decide, fun op => by cases op <;> decide, ?_, ?_⟩ <;> simp [hargc]

end Claims

end Loader
